import Mathlib

/-!
Verification of the eDAQS host-side programs: the circular-buffer
selection/fetch/unpack algorithm of the two sampling-controller variants
(`AVR64EA28_DAQ_MCU` in rs485_edaq.py and `PICO2_DAQ_MCU_BU79100G` in
daq_mcu/pico2_daq_mcu_bu79100g.py), the RS485 framing and command layer
(`EDAQSNode` / `Node`), the pass-through command wrappers, the register
range checks and the NSAMPLES setter clamps.

Python integers are modelled as `Int`; Python `//` is `Int.fdiv` and
Python `%` is `Int.emod` (the `%` of `Int`), which agree with Python's
floor-division semantics.  Python text is modelled as `List Char`.
Fallible code returns `Except Unit _`.
-/

namespace EDAQS

/-- Metadata values read fresh from the device at the start of
`fetch_SRAM_data`, in the order and meaning the source reads them:
`get_*_byte_address_of_oldest_data` (command `a`),
`get_*_size_of_SRAM_in_bytes` (command `T`),
`get_*_size_of_SRAM_in_pages` (command `N`),
`get_*_byte_size_of_sample_set` (command `b`),
`get_*_nchannels` (register 1), `get_*_nsamples` (register 2),
`get_*_max_nsamples` (command `m`) and the trigger-mode register 3. -/
structure DeviceMeta where
  byteAddrOfOldestData : Int
  totalBytes : Int
  totalPages : Int
  bytesPerSampleSet : Int
  nchan : Int
  nsamplesAfterTrigger : Int
  maxNsamples : Int
  triggerMode : Int
deriving Repr, DecidableEq

/-- Quantities computed by the selection part of `fetch_SRAM_data`
(both variants share this code verbatim). -/
structure FetchPlan where
  totalSamples : Int
  nsamplesBeforeTrigger : Int
  nSelect : Int
  nPretrigger : Int
  samplesPerPage : Int
  firstSampleIndex : Int
  firstSampleByteAddr : Int
  firstPageIndex : Int
  nPagesToGet : Int
deriving Repr, DecidableEq

/-- Shared tail of `fetch_SRAM_data` after `total_samples` and
`nsamples_before_trigger` have been determined.  Transcribes:
```
trigger_sample_index = nsamples_before_trigger
if n_select is None: n_select = total_samples
n_select = min(n_select, total_samples)
if n_pretrigger is None: n_pretrigger = nsamples_before_trigger
n_pretrigger = min(n_pretrigger, nsamples_before_trigger)
samples_per_page = 32 // bytes_per_sample_set
first_sample_index = trigger_sample_index - n_pretrigger
first_sample_byte_addr = byte_addr_of_oldest_data + bytes_per_sample_set * first_sample_index
if first_sample_byte_addr > total_bytes: first_sample_byte_addr -= total_bytes
first_page_index = first_sample_byte_addr // 32
n_pages_to_get = n_select // samples_per_page
if (first_sample_byte_addr % 32) != 0: n_pages_to_get += 1
n_pages_to_get = min(n_pages_to_get, total_pages)
```
`none` plays the role of Python's `None` default argument. -/
def fetchPlanCore (m : DeviceMeta) (totalSamples nbt : Int)
    (nSelReq nPreReq : Option Int) : FetchPlan :=
  let triggerSampleIndex := nbt
  let nSelect := min (nSelReq.getD totalSamples) totalSamples
  let nPretrigger := min (nPreReq.getD nbt) nbt
  let samplesPerPage := Int.fdiv 32 m.bytesPerSampleSet
  let firstSampleIndex := triggerSampleIndex - nPretrigger
  let a0 := m.byteAddrOfOldestData + m.bytesPerSampleSet * firstSampleIndex
  let firstSampleByteAddr := if a0 > m.totalBytes then a0 - m.totalBytes else a0
  let firstPageIndex := Int.fdiv firstSampleByteAddr 32
  let npg0 := Int.fdiv nSelect samplesPerPage
  let npg1 := if firstSampleByteAddr % 32 ≠ 0 then npg0 + 1 else npg0
  { totalSamples := totalSamples
    nsamplesBeforeTrigger := nbt
    nSelect := nSelect
    nPretrigger := nPretrigger
    samplesPerPage := samplesPerPage
    firstSampleIndex := firstSampleIndex
    firstSampleByteAddr := firstSampleByteAddr
    firstPageIndex := firstPageIndex
    nPagesToGet := min npg1 m.totalPages }

/-- Totals computation of `AVR64EA28_DAQ_MCU.fetch_SRAM_data`:
`total_samples = self.get_AVR_max_nsamples()` and
`nsamples_before_trigger = total_samples - nsamples_after_trigger`,
with no case split on the trigger mode. -/
def avrTotals (m : DeviceMeta) : Int × Int :=
  (m.maxNsamples, m.maxNsamples - m.nsamplesAfterTrigger)

/-- Totals computation of `PICO2_DAQ_MCU_BU79100G.fetch_SRAM_data`:
`if trigger_mode == 0` (IMMEDIATE) then `total_samples = nsamples_after_trigger`
and `nsamples_before_trigger = 0`, else `total_samples = get_max_nsamples()`
and `nsamples_before_trigger = total_samples - nsamples_after_trigger`. -/
def pico2Totals (m : DeviceMeta) : Int × Int :=
  if m.triggerMode = 0 then (m.nsamplesAfterTrigger, 0)
  else (m.maxNsamples, m.maxNsamples - m.nsamplesAfterTrigger)

/-- Selection computed by the AVR variant's `fetch_SRAM_data`. -/
def fetchPlanAVR (m : DeviceMeta) (nSelReq nPreReq : Option Int) : FetchPlan :=
  fetchPlanCore m (avrTotals m).1 (avrTotals m).2 nSelReq nPreReq

/-- Selection computed by the Pico2 variant's `fetch_SRAM_data`. -/
def fetchPlanPico2 (m : DeviceMeta) (nSelReq nPreReq : Option Int) : FetchPlan :=
  fetchPlanCore m (pico2Totals m).1 (pico2Totals m).2 nSelReq nPreReq

/-- Value written to the NSAMPLES register (register 2) by
`AVR64EA28_DAQ_MCU.set_AVR_nsamples`: `if n < 0: n = 100` and then
`if n > 32767: n = 32767`. -/
def set_AVR_nsamples (n : Int) : Int :=
  let n1 := if n < 0 then 100 else n
  if n1 > 32767 then 32767 else n1

/-- Value written to the NSAMPLES register (register 2) by
`PICO2_DAQ_MCU_BU79100G.set_nsamples`: `if n < 0: n = 100` and then
`if n > 32768: n = 32768`. -/
def set_nsamples (n : Int) : Int :=
  let n1 := if n < 0 then 100 else n
  if n1 > 32768 then 32768 else n1

/-- Concrete scenario of the spec: `total_bytes=3200`,
`bytes_per_sample_set=4`, `byte_addr_of_oldest_data=1600`,
`nsamples_after_trigger=200`, wait-for-event trigger mode, with
`max_nsamples = 800` sample sets fitting in SRAM. -/
def scenarioMeta : DeviceMeta :=
  { byteAddrOfOldestData := 1600
    totalBytes := 3200
    totalPages := 100
    bytesPerSampleSet := 4
    nchan := 2
    nsamplesAfterTrigger := 200
    maxNsamples := 800
    triggerMode := 1 }

/-- Variant of the concrete scenario with the oldest data at byte
address 0 and a request of 600 pretrigger samples, so that the first
selected sample is exactly the oldest one and its byte address is
32-byte aligned. -/
def scenarioAligned : DeviceMeta :=
  { scenarioMeta with byteAddrOfOldestData := 0 }

/-- Modelled from the spec: `ceil(n_select / samples_per_page)`, the
page-count formula the spec states; the source has no ceiling division,
so this definition follows the spec's words for comparison. -/
def specCeilDiv (a b : Int) : Int := -(Int.fdiv (-a) b)

/-- Page count of the shared selection code, rewritten with the
misalignment extra as an added summand. -/
theorem fetchPlanCore_pages (m : DeviceMeta) (ts nbt : Int) (ns np : Option Int) :
    (fetchPlanCore m ts nbt ns np).nPagesToGet =
      min (Int.fdiv (fetchPlanCore m ts nbt ns np).nSelect
            (fetchPlanCore m ts nbt ns np).samplesPerPage
          + (if (fetchPlanCore m ts nbt ns np).firstSampleByteAddr % 32 = 0 then 0 else 1))
        m.totalPages := by
  by_cases h : (fetchPlanCore m ts nbt ns np).firstSampleByteAddr % 32 = 0 <;>
    simp only [fetchPlanCore] at h ⊢ <;> simp [h]

/-- C1: the claim's page-count formula and its concrete scenario values are
refuted by the code.  In the concrete scenario the code computes
`first_sample_byte_addr = 760` (not 1600, since `(1600+4*590) mod 3200 = 760`)
and `first_page_index = 23` (not 50); and on the aligned variant with
`n_select = 50`, `samples_per_page = 8` the code fetches
`floor(50/8) = 6` pages where the claim's ceiling formula predicts 7. -/
theorem C1_counterexample :
    (fetchPlanAVR scenarioMeta (some 50) (some 10)).firstSampleByteAddr = 760 ∧
    (fetchPlanAVR scenarioMeta (some 50) (some 10)).firstSampleByteAddr ≠ 1600 ∧
    (fetchPlanAVR scenarioMeta (some 50) (some 10)).firstPageIndex = 23 ∧
    (fetchPlanAVR scenarioMeta (some 50) (some 10)).firstPageIndex ≠ 50 ∧
    (fetchPlanAVR scenarioAligned (some 50) (some 600)).firstSampleByteAddr % 32 = 0 ∧
    (fetchPlanAVR scenarioAligned (some 50) (some 600)).nPagesToGet = 6 ∧
    specCeilDiv 50 8 = 7 ∧
    (fetchPlanAVR scenarioAligned (some 50) (some 600)).nPagesToGet ≠
      min (specCeilDiv (fetchPlanAVR scenarioAligned (some 50) (some 600)).nSelect
             (fetchPlanAVR scenarioAligned (some 50) (some 600)).samplesPerPage)
        scenarioAligned.totalPages := by
  decide

/-- C1 (amended): in both variants the number of pages fetched is
`floor(n_select / samples_per_page)`, plus one extra page when
`first_sample_byte_addr` is not 32-byte aligned, capped at `total_pages`;
in the concrete scenario (`total_bytes=3200`, `bytes_per_sample_set=4`,
`byte_addr_of_oldest_data=1600`, `nsamples_after_trigger=200`,
wait-for-event mode, `n_select=50`, `n_pretrigger=10`) the fetch computes
`first_sample_index=590`, `first_sample_byte_addr=760`,
`first_page_index=23`, `samples_per_page=8` and `n_pages_to_get=7`
(6 pages plus the extra one, since `760 mod 32 = 24 ≠ 0`). -/
theorem C1_pages_floor_plus_alignment :
    (∀ (m : DeviceMeta) (ns np : Option Int),
      (fetchPlanAVR m ns np).nPagesToGet =
        min (Int.fdiv (fetchPlanAVR m ns np).nSelect (fetchPlanAVR m ns np).samplesPerPage
              + (if (fetchPlanAVR m ns np).firstSampleByteAddr % 32 = 0 then 0 else 1))
          m.totalPages) ∧
    (∀ (m : DeviceMeta) (ns np : Option Int),
      (fetchPlanPico2 m ns np).nPagesToGet =
        min (Int.fdiv (fetchPlanPico2 m ns np).nSelect (fetchPlanPico2 m ns np).samplesPerPage
              + (if (fetchPlanPico2 m ns np).firstSampleByteAddr % 32 = 0 then 0 else 1))
          m.totalPages) ∧
    (fetchPlanAVR scenarioMeta (some 50) (some 10)).firstSampleIndex = 590 ∧
    (fetchPlanAVR scenarioMeta (some 50) (some 10)).firstSampleByteAddr = 760 ∧
    (fetchPlanAVR scenarioMeta (some 50) (some 10)).firstPageIndex = 23 ∧
    (fetchPlanAVR scenarioMeta (some 50) (some 10)).samplesPerPage = 8 ∧
    (fetchPlanAVR scenarioMeta (some 50) (some 10)).nPagesToGet = 7 ∧
    (fetchPlanPico2 scenarioMeta (some 50) (some 10)).nPagesToGet = 7 := by
  refine ⟨fun m ns np => fetchPlanCore_pages m _ _ ns np,
    fun m ns np => fetchPlanCore_pages m _ _ ns np,
    by decide, by decide, by decide, by decide, by decide, by decide⟩

/-- Metadata of the concrete scenario with the trigger mode set to
IMMEDIATE (integer code 0 in both variants). -/
def immediateMeta : DeviceMeta :=
  { scenarioMeta with triggerMode := 0 }

/-- C2: the Pico2 variant computes `total_samples = nsamples_after_trigger`
and `nsamples_before_trigger = 0` exactly when the trigger mode read is
IMMEDIATE (0), and the capacity-based pair in any other mode; the AVR
variant unconditionally uses the capacity-based pair, so at the failing
input (IMMEDIATE mode, NSAMPLES=200, capacity 800) it computes
`total_samples = 800` and `nsamples_before_trigger = 600` instead of the
claimed 200 and 0. -/
theorem C2_immediate_mode :
    (∀ m : DeviceMeta, m.triggerMode = 0 →
      pico2Totals m = (m.nsamplesAfterTrigger, 0)) ∧
    (∀ m : DeviceMeta, m.triggerMode ≠ 0 →
      pico2Totals m = (m.maxNsamples, m.maxNsamples - m.nsamplesAfterTrigger)) ∧
    (∀ m : DeviceMeta,
      avrTotals m = (m.maxNsamples, m.maxNsamples - m.nsamplesAfterTrigger)) ∧
    immediateMeta.triggerMode = 0 ∧
    avrTotals immediateMeta = (800, 600) ∧
    avrTotals immediateMeta ≠ (immediateMeta.nsamplesAfterTrigger, 0) := by
  refine ⟨?_, ?_, fun m => rfl, by decide, by decide, by decide⟩
  · intro m h
    simp [pico2Totals, h]
  · intro m h
    simp [pico2Totals, h]

/-- C2 witness: the Pico2 totals at the IMMEDIATE-mode scenario are
`(200, 0)` and at the wait-for-event scenario `(800, 600)`, while the AVR
totals at the IMMEDIATE-mode scenario are `(800, 600)`. -/
theorem C2_immediate_mode_witness :
    pico2Totals immediateMeta = (200, 0) ∧
    pico2Totals scenarioMeta = (800, 600) ∧
    avrTotals immediateMeta = (800, 600) := by
  refine ⟨?_, ?_, C2_immediate_mode.2.2.2.2.1⟩
  · have h := C2_immediate_mode.1 immediateMeta (by decide)
    simpa using h
  · have h := C2_immediate_mode.2.1 scenarioMeta (by decide)
    simpa using h

/-- Bounds established by the `min` clamping in the shared selection code,
assuming nonnegative availability and nonnegative explicit requests. -/
theorem fetchPlanCore_select_bounds (m : DeviceMeta) (ts nbt : Int) (ns np : Option Int)
    (hts : 0 ≤ ts) (hnbt : 0 ≤ nbt)
    (hns : ∀ x ∈ ns, 0 ≤ x) (hnp : ∀ x ∈ np, 0 ≤ x) :
    0 ≤ (fetchPlanCore m ts nbt ns np).nSelect ∧
    (fetchPlanCore m ts nbt ns np).nSelect ≤ ts ∧
    0 ≤ (fetchPlanCore m ts nbt ns np).nPretrigger ∧
    (fetchPlanCore m ts nbt ns np).nPretrigger ≤ nbt ∧
    (∀ x ∈ ns, ts < x → (fetchPlanCore m ts nbt ns np).nSelect = ts) ∧
    (∀ x ∈ np, nbt < x → (fetchPlanCore m ts nbt ns np).nPretrigger = nbt) := by
  rcases ns with _ | x <;> rcases np with _ | y <;>
    simp only [fetchPlanCore, Option.getD_some, Option.getD_none, Option.mem_def,
      Option.some.injEq, forall_eq, false_implies, implies_true, true_and] at hns hnp ⊢ <;>
    refine ⟨?_, ?_, ?_, ?_, ?_, ?_⟩ <;> simp_all <;> omega

/-- First-sample index bounds coming from the clamped pretrigger request. -/
theorem fetchPlanCore_fsi_bounds (m : DeviceMeta) (ts nbt : Int) (ns np : Option Int)
    (hnbt : 0 ≤ nbt) (hnp : ∀ x ∈ np, 0 ≤ x) :
    0 ≤ (fetchPlanCore m ts nbt ns np).firstSampleIndex ∧
    (fetchPlanCore m ts nbt ns np).firstSampleIndex ≤ nbt := by
  rcases np with _ | y <;>
    simp only [fetchPlanCore, Option.getD_some, Option.getD_none, Option.mem_def,
      Option.some.injEq, forall_eq] at hnp ⊢ <;>
    constructor <;> simp_all <;> omega

/-- Behaviour of the single conditional subtraction applied to
`first_sample_byte_addr` in the shared selection code, for metadata
satisfying `0 ≤ byte_addr_of_oldest_data < total_bytes` and for sample
data fitting in the buffer (`bytes_per_sample_set * nbt ≤ total_bytes`). -/
theorem fetchPlanCore_addr (m : DeviceMeta) (ts nbt : Int) (ns np : Option Int)
    (hb0 : 0 ≤ m.byteAddrOfOldestData) (hb1 : m.byteAddrOfOldestData < m.totalBytes)
    (hbp : 0 ≤ m.bytesPerSampleSet) (hnbt : 0 ≤ nbt)
    (hfit : m.bytesPerSampleSet * nbt ≤ m.totalBytes)
    (hnp : ∀ x ∈ np, 0 ≤ x) :
    (m.byteAddrOfOldestData + m.bytesPerSampleSet * (fetchPlanCore m ts nbt ns np).firstSampleIndex
        ≠ m.totalBytes →
      (fetchPlanCore m ts nbt ns np).firstSampleByteAddr =
        (m.byteAddrOfOldestData
          + m.bytesPerSampleSet * (fetchPlanCore m ts nbt ns np).firstSampleIndex)
          % m.totalBytes) ∧
    (m.byteAddrOfOldestData + m.bytesPerSampleSet * (fetchPlanCore m ts nbt ns np).firstSampleIndex
        = m.totalBytes →
      (fetchPlanCore m ts nbt ns np).firstSampleByteAddr = m.totalBytes) ∧
    0 ≤ (fetchPlanCore m ts nbt ns np).firstSampleByteAddr ∧
    (fetchPlanCore m ts nbt ns np).firstSampleByteAddr ≤ m.totalBytes := by
  obtain ⟨hf0, hf1⟩ := fetchPlanCore_fsi_bounds m ts nbt ns np hnbt hnp
  have hmul0 : 0 ≤ m.bytesPerSampleSet * (fetchPlanCore m ts nbt ns np).firstSampleIndex :=
    mul_nonneg hbp hf0
  have hmul1 : m.bytesPerSampleSet * (fetchPlanCore m ts nbt ns np).firstSampleIndex
      ≤ m.totalBytes :=
    le_trans (mul_le_mul_of_nonneg_left hf1 hbp) hfit
  have hdef : (fetchPlanCore m ts nbt ns np).firstSampleByteAddr =
      if m.byteAddrOfOldestData
          + m.bytesPerSampleSet * (fetchPlanCore m ts nbt ns np).firstSampleIndex
          > m.totalBytes then
        m.byteAddrOfOldestData
          + m.bytesPerSampleSet * (fetchPlanCore m ts nbt ns np).firstSampleIndex
          - m.totalBytes
      else
        m.byteAddrOfOldestData
          + m.bytesPerSampleSet * (fetchPlanCore m ts nbt ns np).firstSampleIndex := rfl
  set a0 := m.byteAddrOfOldestData
      + m.bytesPerSampleSet * (fetchPlanCore m ts nbt ns np).firstSampleIndex with ha0
  have h0 : 0 ≤ a0 := add_nonneg hb0 hmul0
  have h2 : a0 < 2 * m.totalBytes := by omega
  by_cases hgt : a0 > m.totalBytes
  · have hmod : a0 % m.totalBytes = a0 - m.totalBytes := by
      have hstep : a0 % m.totalBytes = (a0 - m.totalBytes) % m.totalBytes := by
        rw [Int.sub_emod, Int.emod_self, sub_zero, Int.emod_emod_of_dvd a0 (dvd_refl _)]
      rw [hstep, Int.emod_eq_of_lt (by omega) (by omega)]
    rw [hdef, if_pos hgt]
    exact ⟨fun _ => hmod.symm, fun heq => absurd heq (by omega), by omega, by omega⟩
  · rw [hdef, if_neg hgt]
    refine ⟨fun hne => ?_, fun heq => heq, h0, by omega⟩
    rw [Int.emod_eq_of_lt h0 (by omega)]

/-- C5: the clamping step uses Python `min` only, so a negative requested
value passes through unchanged and violates the claimed lower bounds; a
requested pretrigger also goes negative when the NSAMPLES register exceeds
the buffer capacity (the `None`-default path then yields it too). -/
theorem C5_counterexample :
    (fetchPlanAVR scenarioMeta (some (-1)) (some 10)).nSelect = -1 ∧
    ¬ 0 ≤ (fetchPlanAVR scenarioMeta (some (-1)) (some 10)).nSelect ∧
    (fetchPlanAVR { scenarioMeta with nsamplesAfterTrigger := 900 }
        (some 50) (some 10)).nPretrigger = -100 ∧
    ¬ 0 ≤ (fetchPlanAVR { scenarioMeta with nsamplesAfterTrigger := 900 }
        (some 50) (some 10)).nPretrigger := by
  decide

/-- C5 (amended): for every nonnegative requested pair (including the
`None` defaults) and every metadata state whose post-trigger count does
not exceed the capacity (`0 ≤ nsamples_after_trigger ≤ max_nsamples`),
the clamping step of both variants yields
`0 ≤ n_pretrigger ≤ nsamples_before_trigger` and
`0 ≤ n_select ≤ total_samples`; a requested `n_select > total_samples`
becomes exactly `total_samples` and a requested
`n_pretrigger > nsamples_before_trigger` becomes exactly
`nsamples_before_trigger`. -/
theorem C5_clamp_bounds (m : DeviceMeta) (ns np : Option Int)
    (hns : ∀ x ∈ ns, 0 ≤ x) (hnp : ∀ x ∈ np, 0 ≤ x)
    (h0 : 0 ≤ m.nsamplesAfterTrigger) (h1 : m.nsamplesAfterTrigger ≤ m.maxNsamples) :
    (0 ≤ (fetchPlanAVR m ns np).nSelect ∧
     (fetchPlanAVR m ns np).nSelect ≤ (fetchPlanAVR m ns np).totalSamples ∧
     0 ≤ (fetchPlanAVR m ns np).nPretrigger ∧
     (fetchPlanAVR m ns np).nPretrigger ≤ (fetchPlanAVR m ns np).nsamplesBeforeTrigger ∧
     (∀ x ∈ ns, (fetchPlanAVR m ns np).totalSamples < x →
       (fetchPlanAVR m ns np).nSelect = (fetchPlanAVR m ns np).totalSamples) ∧
     (∀ x ∈ np, (fetchPlanAVR m ns np).nsamplesBeforeTrigger < x →
       (fetchPlanAVR m ns np).nPretrigger = (fetchPlanAVR m ns np).nsamplesBeforeTrigger)) ∧
    (0 ≤ (fetchPlanPico2 m ns np).nSelect ∧
     (fetchPlanPico2 m ns np).nSelect ≤ (fetchPlanPico2 m ns np).totalSamples ∧
     0 ≤ (fetchPlanPico2 m ns np).nPretrigger ∧
     (fetchPlanPico2 m ns np).nPretrigger ≤ (fetchPlanPico2 m ns np).nsamplesBeforeTrigger ∧
     (∀ x ∈ ns, (fetchPlanPico2 m ns np).totalSamples < x →
       (fetchPlanPico2 m ns np).nSelect = (fetchPlanPico2 m ns np).totalSamples) ∧
     (∀ x ∈ np, (fetchPlanPico2 m ns np).nsamplesBeforeTrigger < x →
       (fetchPlanPico2 m ns np).nPretrigger = (fetchPlanPico2 m ns np).nsamplesBeforeTrigger)) := by
  have hA := fetchPlanCore_select_bounds m (avrTotals m).1 (avrTotals m).2 ns np
    (by simp only [avrTotals]; omega) (by simp only [avrTotals]; omega) hns hnp
  have hP := fetchPlanCore_select_bounds m (pico2Totals m).1 (pico2Totals m).2 ns np
    (by simp only [pico2Totals]; split <;> omega)
    (by simp only [pico2Totals]; split <;> omega) hns hnp
  exact ⟨hA, hP⟩

/-- C5 witness: over-large requests at the concrete scenario are clamped
to exactly the available amounts. -/
theorem C5_clamp_bounds_witness :
    0 ≤ (fetchPlanAVR scenarioMeta (some 2000) (some 2000)).nSelect ∧
    (fetchPlanAVR scenarioMeta (some 2000) (some 2000)).nSelect =
      (fetchPlanAVR scenarioMeta (some 2000) (some 2000)).totalSamples ∧
    (fetchPlanPico2 scenarioMeta (some 2000) (some 2000)).nPretrigger =
      (fetchPlanPico2 scenarioMeta (some 2000) (some 2000)).nsamplesBeforeTrigger := by
  have h := C5_clamp_bounds scenarioMeta (some 2000) (some 2000)
    (by simp) (by simp) (by decide) (by decide)
  exact ⟨h.1.1, h.1.2.2.2.2.1 2000 rfl (by decide), h.2.2.2.2.2.2 2000 rfl (by decide)⟩

/-- Metadata state at which the conditional subtraction hits its boundary:
the first selected sample's unreduced byte address is exactly
`total_bytes`. -/
def boundaryMeta : DeviceMeta :=
  { scenarioMeta with nsamplesAfterTrigger := 400 }

/-- C3: refuted at a reachable boundary state.  With
`byte_addr_of_oldest_data = 1600`, `total_bytes = 3200`,
`bytes_per_sample_set = 4`, `nsamples_after_trigger = 400`
(`nsamples_before_trigger = 400`) and the clamped request
`n_select = 800`, `n_pretrigger = 0`, the sum `1600 + 4*400 = 3200`
equals `total_bytes` exactly; the code's strict `>` test does not
subtract, leaving `first_sample_byte_addr = 3200`, while the claimed
modulo reduction gives 0, and 3200 does not lie in `[0, total_bytes)`. -/
theorem C3_counterexample :
    (fetchPlanAVR boundaryMeta (some 800) (some 0)).firstSampleIndex = 400 ∧
    (fetchPlanAVR boundaryMeta (some 800) (some 0)).firstSampleByteAddr = 3200 ∧
    (boundaryMeta.byteAddrOfOldestData + boundaryMeta.bytesPerSampleSet *
        (fetchPlanAVR boundaryMeta (some 800) (some 0)).firstSampleIndex)
      % boundaryMeta.totalBytes = 0 ∧
    (fetchPlanAVR boundaryMeta (some 800) (some 0)).firstSampleByteAddr ≠ 0 ∧
    ¬ (fetchPlanAVR boundaryMeta (some 800) (some 0)).firstSampleByteAddr
        < boundaryMeta.totalBytes := by
  decide

/-- C3 (amended): for every metadata state with
`0 ≤ byte_addr_of_oldest_data < total_bytes`, nonnegative
`bytes_per_sample_set`, recorded data fitting in the buffer
(`bytes_per_sample_set * max_nsamples ≤ total_bytes`,
`0 ≤ nsamples_after_trigger ≤ max_nsamples`) and every clamped selection
from nonnegative requests, the computed `first_sample_byte_addr` equals
`(byte_addr_of_oldest_data + bytes_per_sample_set * first_sample_index)
mod total_bytes` whenever that sum differs from `total_bytes`; when the
sum equals `total_bytes` the code keeps `total_bytes` itself (the single
subtraction is guarded by a strict comparison), so the result lies in the
closed interval `[0, total_bytes]`, not always in `[0, total_bytes)`. -/
theorem C3_first_sample_byte_addr (m : DeviceMeta) (ns np : Option Int)
    (hb0 : 0 ≤ m.byteAddrOfOldestData) (hb1 : m.byteAddrOfOldestData < m.totalBytes)
    (hbp : 0 ≤ m.bytesPerSampleSet)
    (hfit : m.bytesPerSampleSet * m.maxNsamples ≤ m.totalBytes)
    (h0 : 0 ≤ m.nsamplesAfterTrigger) (h1 : m.nsamplesAfterTrigger ≤ m.maxNsamples)
    (hns : ∀ x ∈ ns, 0 ≤ x) (hnp : ∀ x ∈ np, 0 ≤ x) :
    ((m.byteAddrOfOldestData + m.bytesPerSampleSet *
        (fetchPlanAVR m ns np).firstSampleIndex ≠ m.totalBytes →
      (fetchPlanAVR m ns np).firstSampleByteAddr =
        (m.byteAddrOfOldestData + m.bytesPerSampleSet *
          (fetchPlanAVR m ns np).firstSampleIndex) % m.totalBytes) ∧
     (m.byteAddrOfOldestData + m.bytesPerSampleSet *
        (fetchPlanAVR m ns np).firstSampleIndex = m.totalBytes →
      (fetchPlanAVR m ns np).firstSampleByteAddr = m.totalBytes) ∧
     0 ≤ (fetchPlanAVR m ns np).firstSampleByteAddr ∧
     (fetchPlanAVR m ns np).firstSampleByteAddr ≤ m.totalBytes) ∧
    ((m.byteAddrOfOldestData + m.bytesPerSampleSet *
        (fetchPlanPico2 m ns np).firstSampleIndex ≠ m.totalBytes →
      (fetchPlanPico2 m ns np).firstSampleByteAddr =
        (m.byteAddrOfOldestData + m.bytesPerSampleSet *
          (fetchPlanPico2 m ns np).firstSampleIndex) % m.totalBytes) ∧
     (m.byteAddrOfOldestData + m.bytesPerSampleSet *
        (fetchPlanPico2 m ns np).firstSampleIndex = m.totalBytes →
      (fetchPlanPico2 m ns np).firstSampleByteAddr = m.totalBytes) ∧
     0 ≤ (fetchPlanPico2 m ns np).firstSampleByteAddr ∧
     (fetchPlanPico2 m ns np).firstSampleByteAddr ≤ m.totalBytes) := by
  have htb : 0 < m.totalBytes := lt_of_le_of_lt hb0 hb1
  have hA := fetchPlanCore_addr m (avrTotals m).1 (avrTotals m).2 ns np hb0 hb1 hbp
    (by simp only [avrTotals]; omega)
    (by simp only [avrTotals]
        calc m.bytesPerSampleSet * (m.maxNsamples - m.nsamplesAfterTrigger)
            ≤ m.bytesPerSampleSet * m.maxNsamples :=
              mul_le_mul_of_nonneg_left (by omega) hbp
          _ ≤ m.totalBytes := hfit) hnp
  have hP := fetchPlanCore_addr m (pico2Totals m).1 (pico2Totals m).2 ns np hb0 hb1 hbp
    (by simp only [pico2Totals]; split <;> omega)
    (by simp only [pico2Totals]
        split
        · simpa using le_of_lt htb
        · calc m.bytesPerSampleSet * (m.maxNsamples - m.nsamplesAfterTrigger)
              ≤ m.bytesPerSampleSet * m.maxNsamples :=
                mul_le_mul_of_nonneg_left (by omega) hbp
            _ ≤ m.totalBytes := hfit) hnp
  exact ⟨hA, hP⟩

/-- C3 witness: at the concrete scenario the sum `1600 + 4*590 = 3960`
differs from `total_bytes`, so the fetched address equals the modulo
reduction, namely 760. -/
theorem C3_first_sample_byte_addr_witness :
    (fetchPlanAVR scenarioMeta (some 50) (some 10)).firstSampleByteAddr =
      (scenarioMeta.byteAddrOfOldestData + scenarioMeta.bytesPerSampleSet *
        (fetchPlanAVR scenarioMeta (some 50) (some 10)).firstSampleIndex)
        % scenarioMeta.totalBytes ∧
    (fetchPlanAVR scenarioMeta (some 50) (some 10)).firstSampleByteAddr = 760 := by
  have h := C3_first_sample_byte_addr scenarioMeta (some 50) (some 10)
    (by decide) (by decide) (by decide) (by decide) (by decide) (by decide)
    (by simp) (by simp)
  exact ⟨h.1.1 (by decide), by decide⟩

/-- C10: for every integer `n`, `set_AVR_nsamples` writes 100 when `n < 0`,
32767 when `n > 32767`, and `n` otherwise; `set_nsamples` (Pico2) writes
100 when `n < 0`, 32768 when `n > 32768`, and `n` otherwise.  Both are
total functions of `n`: no input is rejected. -/
theorem C10_nsamples_clamp (n : Int) :
    (n < 0 → set_AVR_nsamples n = 100 ∧ set_nsamples n = 100) ∧
    (n > 32767 → set_AVR_nsamples n = 32767) ∧
    (0 ≤ n → n ≤ 32767 → set_AVR_nsamples n = n) ∧
    (n > 32768 → set_nsamples n = 32768) ∧
    (0 ≤ n → n ≤ 32768 → set_nsamples n = n) := by
  refine ⟨fun h => ⟨?_, ?_⟩, fun h => ?_, fun h h2 => ?_, fun h => ?_, fun h h2 => ?_⟩ <;>
  · simp only [set_AVR_nsamples, set_nsamples]
    split_ifs <;> omega

/-- C10 witness: concrete evaluations of the clamp at -5, 40000 and 7. -/
theorem C10_nsamples_clamp_witness :
    set_AVR_nsamples (-5) = 100 ∧ set_nsamples (-5) = 100 ∧
    set_AVR_nsamples 40000 = 32767 ∧ set_nsamples 40000 = 32768 ∧
    set_AVR_nsamples 7 = 7 ∧ set_nsamples 7 = 7 := by
  refine ⟨((C10_nsamples_clamp (-5)).1 (by decide)).1,
    ((C10_nsamples_clamp (-5)).1 (by decide)).2,
    (C10_nsamples_clamp 40000).2.1 (by decide),
    (C10_nsamples_clamp 40000).2.2.2.1 (by decide),
    (C10_nsamples_clamp 7).2.2.1 (by decide) (by decide),
    (C10_nsamples_clamp 7).2.2.2.2 (by decide) (by decide)⟩

/-! RS485 framing layer: `EDAQSNode.get_RS485_response` / `command_PIC`
in rs485_edaq.py and the identical `Node.get_response` / `Node.command`
in comms_mcu/rs485.py.  Python text is `List Char`; `str.strip()` is
`pyStrip`; `re.sub(pat, <empty>, txt)` with the literal patterns `/0` and
`#` is `removeSlashZero` / `removeHash`; `re.sub(c, <empty>, txt, count=1)`
with an ordinary command character `c` is `removeFirstChar c`. -/

/-- Characters removed by Python `str.strip()`. -/
def pyWhitespace (c : Char) : Bool :=
  c = ' ' || c = '\t' || c = '\n' || c = '\r' || c = '\x0b' || c = '\x0c'

/-- Python `str.strip()`: drop whitespace from both ends. -/
def pyStrip (s : List Char) : List Char :=
  ((s.dropWhile pyWhitespace).reverse.dropWhile pyWhitespace).reverse

/-- Left-to-right removal of every (non-overlapping) occurrence of the
two-character pattern `/0`, as `re.sub` does with an empty replacement. -/
def removeSlashZero : List Char → List Char
  | [] => []
  | [c] => [c]
  | c :: d :: rest =>
    if c = '/' ∧ d = '0' then removeSlashZero rest
    else c :: removeSlashZero (d :: rest)

/-- Removal of every occurrence of `#`, as `re.sub` does with the
one-character pattern. -/
def removeHash (s : List Char) : List Char := s.filter (fun c => c ≠ '#')

/-- Python `txt.find(<hash>) >= 0`. -/
def containsHash (s : List Char) : Bool := s.any (fun c => c = '#')

/-- Python `txt.startswith('/0')`. -/
def startsSlashZero : List Char → Bool
  | '/' :: '0' :: _ => true
  | _ => false

/-- Removal of the first occurrence of the command character, as
`re.sub(cmd_char, <empty>, txt, count=1)` does for an ordinary
command character — one with `isRegexMeta c = false`; for regex
metacharacters the source behaves differently (no removal, or
`re.error`), so the round-trip theorem below only quantifies over
ordinary characters. -/
def removeFirstChar (c : Char) : List Char → List Char
  | [] => []
  | x :: rest => if x = c then rest else x :: removeFirstChar c rest

/-- Transcription of `EDAQSNode.get_RS485_response` (and of the identical
`Node.get_response`): strip the received line; a line not starting with
`/0` raises; a line without `#` is reported as incomplete and returned
unchanged; otherwise every `/0` and every `#` is removed, with a strip
after each removal. -/
def getRS485Response (line : List Char) : Except Unit (List Char) :=
  let txt := pyStrip line
  if startsSlashZero txt then
    if containsHash txt then
      Except.ok (pyStrip (removeHash (pyStrip (removeSlashZero txt))))
    else
      Except.ok txt
  else
    Except.error ()

/-- Transcription of `EDAQSNode.command_PIC` (and of the identical
`Node.command`) from the decoded response onward: `c0` is `cmd_txt[0]`;
a response not starting with `c0` raises `Unexpected response` (this
branch is literal `startswith`, faithful for every character); otherwise
the first occurrence of `c0` is removed and the rest stripped — that
removal step models `re.sub` faithfully only for ordinary command
characters (`isRegexMeta c0 = false`).  (The `error`-substring branch
only prints a warning and still returns.) -/
def commandPIC (c0 : Char) (line : List Char) : Except Unit (List Char) :=
  match getRS485Response line with
  | Except.error e => Except.error e
  | Except.ok txt =>
    match txt with
    | [] => Except.error ()
    | t :: rest =>
      if t = c0 then Except.ok (pyStrip (removeFirstChar c0 (t :: rest)))
      else Except.error ()

/-- C7: for every command first character `c0` and every line whose
decoded response does not begin with `c0`, `command` raises and never
returns a payload. -/
theorem C7_echo_mismatch_fault (c0 : Char) (line txt : List Char)
    (hdec : getRS485Response line = Except.ok txt)
    (hmismatch : txt.head? ≠ some c0) :
    commandPIC c0 line = Except.error () := by
  unfold commandPIC
  rw [hdec]
  cases txt with
  | nil => rfl
  | cons t rest =>
    have hne : t ≠ c0 := by
      intro h
      exact hmismatch (by rw [h, List.head?_cons])
    show (if t = c0 then Except.ok (pyStrip (removeFirstChar c0 (t :: rest)))
          else Except.error ()) = Except.error ()
    rw [if_neg hne]

/-- C7 witness: decoding `/0w#` yields `w`, which does not begin with
`v`, and `command` for `v` on that line raises. -/
theorem C7_echo_mismatch_fault_witness :
    getRS485Response ['/', '0', 'w', '#'] = Except.ok ['w'] ∧
    commandPIC 'v' ['/', '0', 'w', '#'] = Except.error () := by
  refine ⟨rfl, C7_echo_mismatch_fault 'v' ['/', '0', 'w', '#'] ['w']
    rfl (by decide)⟩

/-! Pass-through command wrappers: `EDAQSNode.command_DAQ_MCU`
(rs485_edaq.py), the identical tail of
`PIC18F26Q71_COMMS_3_MCU.command_DAQ_MCU`
(comms_mcu/pic18f26q71_comms_3_mcu.py), and the echo-based
`command_DAQ_MCU` of comms_mcu/pic18f16q41_jm_ads131m04_comms.py.
All three are modelled from the unwrapped reply of the wrapped
`X`-command onward. -/

/-- Whether the two-character confirmation marker `ok` occurs in the
reply, as Python `txt.find('ok') >= 0` tests. -/
def containsOkMarker : List Char → Bool
  | [] => false
  | [_] => false
  | c :: d :: rest => (c = 'o' && d = 'k') || containsOkMarker (d :: rest)

/-- Left-to-right removal of the first occurrence of `ok`, as
`re.sub('ok', <empty>, txt, count=1)` does. -/
def removeFirstOkMarker : List Char → List Char
  | [] => []
  | [c] => [c]
  | c :: d :: rest =>
    if c = 'o' ∧ d = 'k' then rest
    else c :: removeFirstOkMarker (d :: rest)

/-- Transcription of `EDAQSNode.command_DAQ_MCU` and of the identical
tail of `PIC18F26Q71_COMMS_3_MCU.command_DAQ_MCU`: a reply containing
`ok` anywhere has its first `ok` removed and is stripped; any other
reply raises `DAQ_MCU response not ok`. -/
def commandDAQviaOk (reply : List Char) : Except Unit (List Char) :=
  if containsOkMarker reply then Except.ok (pyStrip (removeFirstOkMarker reply))
  else Except.error ()

/-- Python `str.lower()` on the ASCII replies. -/
def pyLower (s : List Char) : List Char :=
  s.map fun c => if 'A' ≤ c ∧ c ≤ 'Z' then Char.ofNat (c.toNat + 32) else c

/-- Whether the five-character marker `error` occurs in the text. -/
def containsErrorWord : List Char → Bool
  | c1 :: c2 :: c3 :: c4 :: c5 :: rest =>
    (c1 = 'e' && c2 = 'r' && c3 = 'r' && c4 = 'o' && c5 = 'r')
      || containsErrorWord (c2 :: c3 :: c4 :: c5 :: rest)
  | _ => false

/-- Transcription of `command_DAQ_MCU` in
comms_mcu/pic18f16q41_jm_ads131m04_comms.py from the unwrapped reply
onward: `t = txt.strip()`; when the command text and `t` are both
nonempty and `t[0] == cmd_txt[0]`, return `t[1:].strip()`; otherwise
raise when `t.lower()` contains `error`, and fall back to returning `t`
unchanged when it does not. -/
def commandDAQviaEcho (cmd reply : List Char) : Except Unit (List Char) :=
  let t := pyStrip reply
  if cmd.length > 0 && t.length > 0 && (t.head? == cmd.head?) then
    Except.ok (pyStrip t.tail)
  else if containsErrorWord (pyLower t) then Except.error ()
  else Except.ok t

/-- C8: refuted for the echo-based wrapper.  For the inner command `v`
and the reply `q1`, which neither echoes `v` nor contains `error`, the
pic18f16q41 variant returns the reply unchanged instead of raising: its
fall-back branch returns `t` as-is, so the pass-through is not
all-or-nothing there. -/
theorem C8_counterexample :
    commandDAQviaEcho ['v'] ['q', '1'] = Except.ok ['q', '1'] ∧
    (pyStrip ['q', '1']).head? ≠ some 'v' ∧
    containsOkMarker ['q', '1'] = false := by
  refine ⟨rfl, by decide, by decide⟩

/-- C8 (amended): the two `ok`-marker wrappers return the unwrapped
reply exactly when the reply contains `ok` and raise a hard error for
every reply lacking it (all-or-nothing); the echo-based wrapper returns
the stripped tail when the stripped reply echoes the inner command's
leading character, raises only when the non-echoing stripped reply
contains `error` case-insensitively, and otherwise falls back to
returning the stripped reply unchanged. -/
theorem C8_pass_through_confirmation (reply : List Char) (c0 : Char) (cs : List Char) :
    (containsOkMarker reply = false → commandDAQviaOk reply = Except.error ()) ∧
    (containsOkMarker reply = true →
      commandDAQviaOk reply = Except.ok (pyStrip (removeFirstOkMarker reply))) ∧
    ((pyStrip reply).head? = some c0 →
      commandDAQviaEcho (c0 :: cs) reply = Except.ok (pyStrip (pyStrip reply).tail)) ∧
    ((pyStrip reply).head? ≠ some c0 →
      containsErrorWord (pyLower (pyStrip reply)) = true →
      commandDAQviaEcho (c0 :: cs) reply = Except.error ()) ∧
    ((pyStrip reply).head? ≠ some c0 →
      containsErrorWord (pyLower (pyStrip reply)) = false →
      commandDAQviaEcho (c0 :: cs) reply = Except.ok (pyStrip reply)) := by
  refine ⟨fun h => by simp [commandDAQviaOk, h],
    fun h => by simp [commandDAQviaOk, h], ?_, ?_, ?_⟩
  · intro h
    simp only [commandDAQviaEcho]
    cases ht : pyStrip reply with
    | nil => rw [ht] at h; simp at h
    | cons x xs =>
      rw [ht] at h
      simp only [List.head?_cons, Option.some.injEq] at h
      subst h
      simp [ht]
  · intro h herr
    simp only [commandDAQviaEcho]
    cases ht : pyStrip reply with
    | nil =>
      rw [ht] at herr
      simp [herr]
    | cons x xs =>
      rw [ht] at h herr
      have hx : x ≠ c0 := by
        intro hx; exact h (by rw [hx, List.head?_cons])
      simp [hx, herr]
  · intro h herr
    simp only [commandDAQviaEcho]
    cases ht : pyStrip reply with
    | nil =>
      rw [ht] at herr
      simp [herr]
    | cons x xs =>
      rw [ht] at h herr
      have hx : x ≠ c0 := by
        intro hx; exact h (by rw [hx, List.head?_cons])
      simp [hx, herr]

/-- C8 witness: the `ok` wrapper unwraps `ok 42` to `42` and raises on
`nope`; the echo wrapper unwraps ` v7 ` for command `v` to `7`, raises
on `Error!`, and the counterexample shows its fall-back. -/
theorem C8_pass_through_confirmation_witness :
    commandDAQviaOk ['o', 'k', ' ', '4', '2'] = Except.ok ['4', '2'] ∧
    commandDAQviaOk ['n', 'o', 'p', 'e'] = Except.error () ∧
    commandDAQviaEcho ['v'] [' ', 'v', '7', ' '] = Except.ok ['7'] ∧
    commandDAQviaEcho ['v'] ['E', 'r', 'r', 'o', 'r', '!'] = Except.error () := by
  have h1 := C8_pass_through_confirmation ['o', 'k', ' ', '4', '2'] 'v' []
  have h2 := C8_pass_through_confirmation ['n', 'o', 'p', 'e'] 'v' []
  have h3 := C8_pass_through_confirmation [' ', 'v', '7', ' '] 'v' []
  have h4 := C8_pass_through_confirmation ['E', 'r', 'r', 'o', 'r', '!'] 'v' []
  refine ⟨?_, h2.1 (by decide), ?_, h4.2.2.2.1 (by decide) (by decide)⟩
  · have := h1.2.1 (by decide)
    simpa using this
  · have := h3.2.2.1 (by decide)
    simpa using this

/-! Register-file range checks: `AVR64EA28_DAQ_MCU.get_AVR_reg` /
`set_AVR_reg` (rs485_edaq.py) and `PICO2_DAQ_MCU_BU79100G.get_reg` /
`set_reg` (daq_mcu/pico2_daq_mcu_bu79100g.py).  The device is modelled
as an oracle: `nRegActual` is its reply to the register-count command
`n`, `regVal i` its reply to `r i`, `setReply i v` its reply to `s i v`.
Each modelled access returns its result together with the list of inner
commands actually issued, in order. -/

/-- Inner commands a register access can issue to the sampling
controller through the pass-through channel. -/
inductive DaqCmd where
  | queryN : DaqCmd
  | readReg : Int → DaqCmd
  | writeReg : Int → Int → DaqCmd
deriving Repr, DecidableEq

/-- Transcription of `AVR64EA28_DAQ_MCU.get_AVR_reg`: first query the
actual register count, raise when `i >= n_reg_actual`, and only
otherwise issue the register read `r i`. -/
def get_AVR_reg (nRegActual : Int) (regVal : Int → Int) (i : Int) :
    Except Unit Int × List DaqCmd :=
  if i ≥ nRegActual then (Except.error (), [DaqCmd.queryN])
  else (Except.ok (regVal i), [DaqCmd.queryN, DaqCmd.readReg i])

/-- Transcription of `AVR64EA28_DAQ_MCU.set_AVR_reg`: first query the
actual register count, raise when `i >= n_reg_actual`, and only
otherwise issue the register write `s i val`, returning the echoed
value. -/
def set_AVR_reg (nRegActual : Int) (setReply : Int → Int → Int) (i v : Int) :
    Except Unit Int × List DaqCmd :=
  if i ≥ nRegActual then (Except.error (), [DaqCmd.queryN])
  else (Except.ok (setReply i v), [DaqCmd.queryN, DaqCmd.writeReg i v])

/-- Transcription of `PICO2_DAQ_MCU_BU79100G.get_reg` (same body as the
AVR variant). -/
def get_reg (nRegActual : Int) (regVal : Int → Int) (i : Int) :
    Except Unit Int × List DaqCmd :=
  if i ≥ nRegActual then (Except.error (), [DaqCmd.queryN])
  else (Except.ok (regVal i), [DaqCmd.queryN, DaqCmd.readReg i])

/-- Transcription of `PICO2_DAQ_MCU_BU79100G.set_reg` (same body as the
AVR variant). -/
def set_reg (nRegActual : Int) (setReply : Int → Int → Int) (i v : Int) :
    Except Unit Int × List DaqCmd :=
  if i ≥ nRegActual then (Except.error (), [DaqCmd.queryN])
  else (Except.ok (setReply i v), [DaqCmd.queryN, DaqCmd.writeReg i v])

/-- C9: for every freshly queried register count `n` (the oracle value,
unrelated to the compile-time table sizes 36 and 5) and every index `i`,
all four register accessors raise exactly when `i ≥ n`, having issued
only the count query and no register command; when `i < n` they issue
the register command and return its parsed reply. -/
theorem C9_register_range_fault (n : Int) (rv : Int → Int)
    (sr : Int → Int → Int) (i v : Int) :
    (i ≥ n →
      get_AVR_reg n rv i = (Except.error (), [DaqCmd.queryN]) ∧
      set_AVR_reg n sr i v = (Except.error (), [DaqCmd.queryN]) ∧
      get_reg n rv i = (Except.error (), [DaqCmd.queryN]) ∧
      set_reg n sr i v = (Except.error (), [DaqCmd.queryN]) ∧
      (∀ j, DaqCmd.readReg j ∉ (get_AVR_reg n rv i).2) ∧
      (∀ j w, DaqCmd.writeReg j w ∉ (set_AVR_reg n sr i v).2)) ∧
    (i < n →
      get_AVR_reg n rv i = (Except.ok (rv i), [DaqCmd.queryN, DaqCmd.readReg i]) ∧
      set_AVR_reg n sr i v = (Except.ok (sr i v), [DaqCmd.queryN, DaqCmd.writeReg i v]) ∧
      get_reg n rv i = (Except.ok (rv i), [DaqCmd.queryN, DaqCmd.readReg i]) ∧
      set_reg n sr i v = (Except.ok (sr i v), [DaqCmd.queryN, DaqCmd.writeReg i v])) := by
  constructor
  · intro h
    refine ⟨?_, ?_, ?_, ?_, ?_, ?_⟩ <;>
      simp [get_AVR_reg, set_AVR_reg, get_reg, set_reg, h]
  · intro h
    have hlt : ¬ i ≥ n := by omega
    refine ⟨?_, ?_, ?_, ?_⟩ <;>
      simp [get_AVR_reg, set_AVR_reg, get_reg, set_reg, hlt]

/-- C9 witness: with a freshly queried count of 36, index 40 is rejected
after the count query alone and index 2 is read. -/
theorem C9_register_range_fault_witness :
    get_AVR_reg 36 (fun _ => 0) 40 = (Except.error (), [DaqCmd.queryN]) ∧
    get_reg 5 (fun _ => 0) 7 = (Except.error (), [DaqCmd.queryN]) ∧
    get_AVR_reg 36 (fun _ => 0) 2 =
      (Except.ok 0, [DaqCmd.queryN, DaqCmd.readReg 2]) ∧
    set_reg 5 (fun _ _ => 1) 2 9 =
      (Except.ok 1, [DaqCmd.queryN, DaqCmd.writeReg 2 9]) := by
  refine ⟨(C9_register_range_fault 36 (fun _ => 0) (fun _ _ => 1) 40 0).1
      (by decide) |>.1,
    (C9_register_range_fault 5 (fun _ => 0) (fun _ _ => 1) 7 0).1
      (by decide) |>.2.2.1,
    (C9_register_range_fault 36 (fun _ => 0) (fun _ _ => 1) 2 0).2
      (by decide) |>.1,
    (C9_register_range_fault 5 (fun _ => 0) (fun _ _ => 1) 2 9).2
      (by decide) |>.2.2.2⟩

/-! Unpack layer: `AVR64EA28_DAQ_MCU.unpack_to_samples` (rs485_edaq.py)
and `PICO2_DAQ_MCU_BU79100G.unpack_to_samples`
(daq_mcu/pico2_daq_mcu_bu79100g.py).  Both read the same dictionary
fields that `fetch_SRAM_data` produced; the local byte buffer is
modelled as a function from byte addresses to byte values. -/

/-- Fields of the dictionary returned by `fetch_SRAM_data` that
`unpack_to_samples` reads. -/
structure FetchData where
  totalBytes : Int
  bytesPerSampleSet : Int
  byteAddrOfOldestData : Int
  nsamplesSelect : Int
  firstSampleIndex : Int
  nchan : Int
deriving Repr, DecidableEq

/-- Dictionary fields produced by the AVR variant's `fetch_SRAM_data`. -/
def fetchDataAVR (m : DeviceMeta) (ns np : Option Int) : FetchData :=
  { totalBytes := m.totalBytes
    bytesPerSampleSet := m.bytesPerSampleSet
    byteAddrOfOldestData := m.byteAddrOfOldestData
    nsamplesSelect := (fetchPlanAVR m ns np).nSelect
    firstSampleIndex := (fetchPlanAVR m ns np).firstSampleIndex
    nchan := m.nchan }

/-- Dictionary fields produced by the Pico2 variant's `fetch_SRAM_data`. -/
def fetchDataPico2 (m : DeviceMeta) (ns np : Option Int) : FetchData :=
  { totalBytes := m.totalBytes
    bytesPerSampleSet := m.bytesPerSampleSet
    byteAddrOfOldestData := m.byteAddrOfOldestData
    nsamplesSelect := (fetchPlanPico2 m ns np).nSelect
    firstSampleIndex := (fetchPlanPico2 m ns np).firstSampleIndex
    nchan := m.nchan }

/-- Unpack address of the AVR variant for the `i`-th selected sample:
`addr = byte_addr_of_oldest_data + bpss * (i + first_sample_index)`,
then `if addr >= nbytes: addr -= nbytes` — a single subtraction. -/
def avrUnpackAddr (d : FetchData) (i : Nat) : Int :=
  let a := d.byteAddrOfOldestData
    + d.bytesPerSampleSet * ((i : Int) + d.firstSampleIndex)
  if a ≥ d.totalBytes then a - d.totalBytes else a

/-- Iterated subtraction of the Pico2 variant:
`while addr >= nbytes: addr -= nbytes`.  The model returns the address
unchanged when `nbytes ≤ 0`, a case in which the Python loop would not
terminate and which the theorems below exclude. -/
def wrapAddr (nbytes : Int) (a : Int) : Int :=
  if _h : 0 < nbytes ∧ nbytes ≤ a then wrapAddr nbytes (a - nbytes) else a
termination_by a.toNat
decreasing_by omega

/-- Unpack address of the Pico2 variant for the `i`-th selected sample. -/
def pico2UnpackAddr (d : FetchData) (i : Nat) : Int :=
  wrapAddr d.totalBytes
    (d.byteAddrOfOldestData + d.bytesPerSampleSet * ((i : Int) + d.firstSampleIndex))

/-- Value of channel `j` decoded by `struct.Struct('>nh')` at byte
offset `addr` of the local buffer: two bytes in big-endian (network)
order form an unsigned 16-bit value, reinterpreted as a signed 16-bit
integer. -/
def sampleValue (buf : Int → Int) (addr : Int) (j : Nat) : Int :=
  let u := buf (addr + 2 * j) * 256 + buf (addr + 2 * j + 1)
  if u < 32768 then u else u - 65536

/-- Guard under which `struct.unpack_from` succeeds for every selected
sample: each computed offset is nonnegative and leaves room for one
sample set of `2 * nchan` bytes inside the local buffer.  When it fails
for some sample, the Python loop raises there and the whole call
returns nothing. -/
def unpackOffsetsOk (d : FetchData) (addrFn : Nat → Int) : Bool :=
  (List.range d.nsamplesSelect.toNat).all fun i =>
    0 ≤ addrFn i && addrFn i + 2 * d.nchan ≤ d.totalBytes

/-- Channel lists built by the unpack loop: channel `j` collects, for
`i` in `[0, nsamples_select)`, the value of channel `j` of the sample
set decoded at the offset of sample `i` (the Python loop appends
`items[j]` to `_samples[j]` for each `i` in order). -/
def unpackChannels (d : FetchData) (buf : Int → Int) (addrFn : Nat → Int) :
    Option (List (List Int)) :=
  if unpackOffsetsOk d addrFn then
    some ((List.range d.nchan.toNat).map fun j =>
      (List.range d.nsamplesSelect.toNat).map fun i =>
        sampleValue buf (addrFn i) j)
  else none

/-- Transcription of the AVR variant's `unpack_to_samples` data part. -/
def unpackAVR (d : FetchData) (buf : Int → Int) : Option (List (List Int)) :=
  unpackChannels d buf (avrUnpackAddr d)

/-- Transcription of the Pico2 variant's `unpack_to_samples` data part. -/
def unpackPico2 (d : FetchData) (buf : Int → Int) : Option (List (List Int)) :=
  unpackChannels d buf (pico2UnpackAddr d)

/-- Device state exercising the AVR unpack divergence: the whole buffer
is selected with no pretrigger samples, so late accesses run past the
recorded window and wrap the circular region more than once. -/
def overrunMeta : DeviceMeta :=
  { byteAddrOfOldestData := 32
    totalBytes := 64
    totalPages := 2
    bytesPerSampleSet := 4
    nchan := 2
    nsamplesAfterTrigger := 0
    maxNsamples := 16
    triggerMode := 1 }

/-- C4: refuted for the AVR variant.  For the fetch-produced dictionary
with `total_bytes=64`, `bytes_per_sample_set=4`, oldest data at 32,
`first_sample_index=16` and `nsamples_select=16` (the clamped request
`n_select=16`, `n_pretrigger=0`), sample `i=15` has unreduced address
`32+4*31=156`; the AVR code subtracts 64 once, reaching 92, while the
claimed modulo offset is 28 — 92 lies outside the local buffer, so the
AVR call raises instead of decoding at 28. -/
theorem C4_counterexample :
    (fetchDataAVR overrunMeta (some 16) (some 0)).nsamplesSelect = 16 ∧
    (fetchDataAVR overrunMeta (some 16) (some 0)).firstSampleIndex = 16 ∧
    avrUnpackAddr (fetchDataAVR overrunMeta (some 16) (some 0)) 15 = 92 ∧
    (overrunMeta.byteAddrOfOldestData + overrunMeta.bytesPerSampleSet *
        ((15 : Int) + (fetchDataAVR overrunMeta (some 16) (some 0)).firstSampleIndex))
      % overrunMeta.totalBytes = 28 ∧
    avrUnpackAddr (fetchDataAVR overrunMeta (some 16) (some 0)) 15 ≠ 28 ∧
    ¬ avrUnpackAddr (fetchDataAVR overrunMeta (some 16) (some 0)) 15
        < overrunMeta.totalBytes ∧
    unpackAVR (fetchDataAVR overrunMeta (some 16) (some 0)) (fun _ => 0) = none := by
  refine ⟨by decide, by decide, by decide, by decide, by decide, by decide, ?_⟩
  rfl

/-- Helper: `List.all` respects pointwise equal predicates. -/
theorem all_congr_fn (l : List Nat) (f g : Nat → Bool)
    (h : ∀ i ∈ l, f i = g i) : l.all f = l.all g := by
  induction l with
  | nil => rfl
  | cons x xs ih =>
    simp only [List.all_cons]
    rw [h x (by simp), ih fun i hi => h i (by simp [hi])]

/-- Helper: the unpack result only depends on the address function
through its values on the selected range. -/
theorem unpackChannels_congr (d : FetchData) (buf : Int → Int) (f g : Nat → Int)
    (h : ∀ i ∈ List.range d.nsamplesSelect.toNat, f i = g i) :
    unpackChannels d buf f = unpackChannels d buf g := by
  have hguard : unpackOffsetsOk d f = unpackOffsetsOk d g := by
    unfold unpackOffsetsOk
    exact all_congr_fn _ _ _ fun i hi => by rw [h i hi]
  unfold unpackChannels
  rw [hguard]
  cases hok : unpackOffsetsOk d g with
  | false => rfl
  | true =>
    simp only [if_pos]
    refine congrArg some (List.map_congr_left fun j _ => ?_)
    refine List.map_congr_left fun i hi => ?_
    rw [h i hi]

/-- Helper: the iterated subtraction of the Pico2 unpack loop computes
the modulo reduction for a positive buffer size and nonnegative
address (bounded recursion on the address magnitude). -/
theorem wrapAddr_eq_emod_aux (nbytes : Int) (hn : 0 < nbytes) :
    ∀ (k : Nat) (a : Int), a.toNat ≤ k → 0 ≤ a → wrapAddr nbytes a = a % nbytes
  | 0, a, hk, ha => by
      have ha0 : a = 0 := by omega
      subst ha0
      unfold wrapAddr
      rw [dif_neg (by omega)]
      simp
  | k + 1, a, hk, ha => by
      by_cases hle : nbytes ≤ a
      · unfold wrapAddr
        rw [dif_pos ⟨hn, hle⟩]
        rw [wrapAddr_eq_emod_aux nbytes hn k (a - nbytes) (by omega) (by omega)]
        calc (a - nbytes) % nbytes
            = (a % nbytes - nbytes % nbytes) % nbytes := Int.sub_emod a nbytes nbytes
          _ = a % nbytes := by
              rw [Int.emod_self, sub_zero, Int.emod_emod_of_dvd a (dvd_refl nbytes)]
      · unfold wrapAddr
        rw [dif_neg (by omega)]
        rw [Int.emod_eq_of_lt ha (by omega)]

/-- Helper: entry point of the previous recursion. -/
theorem wrapAddr_eq_emod (nbytes a : Int) (hn : 0 < nbytes) (ha : 0 ≤ a) :
    wrapAddr nbytes a = a % nbytes :=
  wrapAddr_eq_emod_aux nbytes hn a.toNat a le_rfl ha

/-- Helper: a single conditional subtraction agrees with the modulo
reduction on `[0, 2*nbytes)`. -/
theorem singleSub_eq_emod (tb a : Int) (htb : 0 < tb) (h0 : 0 ≤ a)
    (h2 : a < 2 * tb) : (if a ≥ tb then a - tb else a) = a % tb := by
  by_cases hge : a ≥ tb
  · rw [if_pos hge]
    have hs : a % tb = (a - tb) % tb := by
      rw [Int.sub_emod, Int.emod_self, sub_zero, Int.emod_emod_of_dvd a (dvd_refl tb)]
    rw [hs, Int.emod_eq_of_lt (by omega) (by omega)]
  · rw [if_neg hge, Int.emod_eq_of_lt h0 (by omega)]

/-- C4 (amended): for every fetch dictionary with a positive buffer
size, nonnegative oldest-data address, sample-set size and first-sample
index, and offsets leaving room for a full sample set, the Pico2
variant decodes sample `i` at exactly
`(byte_addr_of_oldest_data + bytes_per_sample_set * (first_sample_index
+ i)) mod total_bytes` as big-endian 16-bit signed integers, producing
`nchan` channel sequences of length `nsamples_select` each with the
oldest selected sample at index 0; the AVR variant agrees with it —
hence with the claimed modulo offsets — only under the additional bound
that every unreduced address stays below `2 * total_bytes` (its single
subtraction wraps at most once), which the counterexample violates. -/
theorem C4_unpack_to_samples (d : FetchData) (buf : Int → Int)
    (htb : 0 < d.totalBytes)
    (hb0 : 0 ≤ d.byteAddrOfOldestData)
    (hbp : 0 ≤ d.bytesPerSampleSet)
    (hfsi : 0 ≤ d.firstSampleIndex)
    (hroom : ∀ i : Nat, i < d.nsamplesSelect.toNat →
      (d.byteAddrOfOldestData + d.bytesPerSampleSet * ((i : Int) + d.firstSampleIndex))
        % d.totalBytes + 2 * d.nchan ≤ d.totalBytes)
    (hsmall : ∀ i : Nat, i < d.nsamplesSelect.toNat →
      d.byteAddrOfOldestData + d.bytesPerSampleSet * ((i : Int) + d.firstSampleIndex)
        < 2 * d.totalBytes) :
    (∀ i : Nat, i < d.nsamplesSelect.toNat →
      pico2UnpackAddr d i =
        (d.byteAddrOfOldestData
          + d.bytesPerSampleSet * ((i : Int) + d.firstSampleIndex)) % d.totalBytes) ∧
    (∀ i : Nat, i < d.nsamplesSelect.toNat →
      avrUnpackAddr d i = pico2UnpackAddr d i) ∧
    unpackPico2 d buf =
      some ((List.range d.nchan.toNat).map fun (j : Nat) =>
        (List.range d.nsamplesSelect.toNat).map fun (i : Nat) =>
          sampleValue buf
            ((d.byteAddrOfOldestData
              + d.bytesPerSampleSet * ((i : Int) + d.firstSampleIndex)) % d.totalBytes) j) ∧
    unpackAVR d buf = unpackPico2 d buf ∧
    (∀ ls, unpackPico2 d buf = some ls →
      ls.length = d.nchan.toNat ∧ ∀ l ∈ ls, l.length = d.nsamplesSelect.toNat) := by
  have ha0 : ∀ i : Nat, 0 ≤ d.byteAddrOfOldestData
      + d.bytesPerSampleSet * ((i : Int) + d.firstSampleIndex) := fun i =>
    add_nonneg hb0 (mul_nonneg hbp (add_nonneg (Int.natCast_nonneg i) hfsi))
  have hpico : ∀ i : Nat, i < d.nsamplesSelect.toNat →
      pico2UnpackAddr d i =
        (d.byteAddrOfOldestData
          + d.bytesPerSampleSet * ((i : Int) + d.firstSampleIndex)) % d.totalBytes :=
    fun i _ => wrapAddr_eq_emod _ _ htb (ha0 i)
  have havr : ∀ i : Nat, i < d.nsamplesSelect.toNat →
      avrUnpackAddr d i = pico2UnpackAddr d i := by
    intro i hi
    rw [hpico i hi]
    unfold avrUnpackAddr
    exact singleSub_eq_emod _ _ htb (ha0 i) (hsmall i hi)
  have hguard : unpackOffsetsOk d (pico2UnpackAddr d) = true := by
    unfold unpackOffsetsOk
    rw [List.all_eq_true]
    intro i hi
    have hi2 := List.mem_range.mp hi
    rw [hpico i hi2]
    have hnn : 0 ≤ (d.byteAddrOfOldestData
        + d.bytesPerSampleSet * ((i : Int) + d.firstSampleIndex)) % d.totalBytes :=
      Int.emod_nonneg _ (ne_of_gt htb)
    simp only [Bool.and_eq_true, decide_eq_true_eq]
    exact ⟨hnn, hroom i hi2⟩
  have hmain : unpackPico2 d buf =
      some ((List.range d.nchan.toNat).map fun (j : Nat) =>
        (List.range d.nsamplesSelect.toNat).map fun (i : Nat) =>
          sampleValue buf
            ((d.byteAddrOfOldestData
              + d.bytesPerSampleSet * ((i : Int) + d.firstSampleIndex)) % d.totalBytes) j) := by
    unfold unpackPico2 unpackChannels
    rw [hguard]
    simp only [if_pos]
    refine congrArg some (List.map_congr_left fun j _ => ?_)
    refine List.map_congr_left fun i hi => ?_
    rw [hpico i (List.mem_range.mp hi)]
  refine ⟨hpico, havr, hmain, ?_, ?_⟩
  · unfold unpackAVR unpackPico2
    exact unpackChannels_congr d buf _ _ fun i hi => havr i (List.mem_range.mp hi)
  · intro ls hls
    rw [hmain] at hls
    obtain rfl : ls = _ := (Option.some.injEq _ _).mp hls.symm
    constructor
    · simp
    · intro l hl
      simp only [List.mem_map] at hl
      obtain ⟨j, _, rfl⟩ := hl
      simp

/-- Device state for the C4 witness: a pretrigger-window selection whose
offsets stay inside the recorded data. -/
def unpackWitnessMeta : DeviceMeta :=
  { byteAddrOfOldestData := 8
    totalBytes := 64
    totalPages := 2
    bytesPerSampleSet := 4
    nchan := 2
    nsamplesAfterTrigger := 4
    maxNsamples := 16
    triggerMode := 1 }

/-- C4 witness: on the fetch-produced dictionary with oldest data at 8,
`first_sample_index = 12`, two selected samples, and a zero buffer, both
variants decode at offsets 56 and 60 and return two channel sequences of
two zero samples each. -/
theorem C4_unpack_to_samples_witness :
    pico2UnpackAddr (fetchDataPico2 unpackWitnessMeta (some 2) (some 0)) 1 = 60 ∧
    avrUnpackAddr (fetchDataPico2 unpackWitnessMeta (some 2) (some 0)) 1 =
      pico2UnpackAddr (fetchDataPico2 unpackWitnessMeta (some 2) (some 0)) 1 ∧
    unpackPico2 (fetchDataPico2 unpackWitnessMeta (some 2) (some 0)) (fun _ => 0) =
      some [[0, 0], [0, 0]] := by
  have h := C4_unpack_to_samples (fetchDataPico2 unpackWitnessMeta (some 2) (some 0))
    (fun _ => 0) (by decide) (by decide) (by decide) (by decide)
    (by decide) (by decide)
  refine ⟨?_, h.2.1 1 (by decide), ?_⟩
  · rw [h.1 1 (by decide)]
    decide
  · rw [h.2.2.1]
    decide

end EDAQS
